import Mathlib

/-!
Shallow embedding of src/nekro_agent/services/agents/chat_agent.py.

The Python module defines two mutually recursive async functions,
agent_run and agent_exec_result, which drive a single-turn agent loop:
build a bounded context window from the chat history store, assemble a
prompt carrying a one-time anti-injection token, call the model backend
with bounded retry, resolve the raw response into typed actions, execute
the actions (text emission or sandboxed script), and on script failure
recursively re-enter agent_run with the error appended to the addition
messages, up to a bounded depth.

Modelling choices:
- Side effects (channel sends, sandbox runs, model calls, log lines,
  prompt/response persistence) are recorded as an event trace.
- Python list aliasing of addition_prompt_message is modelled by an
  explicit heap of message lists addressed by natural-number references.
- Randomness (os.urandom) is an oracle byte stream in the environment;
  each invocation consumes four bytes at its cursor.
- The model backend, the response resolver and the sandbox are external
  collaborators, modelled as oracle functions in the environment.
- The bounded recursion is realised structurally over an explicit fuel
  argument; the wrappers agent_run and agent_exec_result supply fuel
  that provably covers the depth-bounded retry chain, so the fuel-out
  branch is unreachable from the wrappers.
- Python strings are sequences of code points, so the string operations
  used by the source (endswith, slicing) are modelled on String.data.
-/

/-- Record held by the chat-message persistence collaborator
(DBChatMessage): the fields the agent loop reads. -/
structure DBChatMessage where
  chat_key : String
  send_timestamp : Int
  content : String
deriving DecidableEq, Repr

/-- Incoming chat message that triggers an invocation (ChatMessage):
the fields the agent loop reads. -/
structure ChatMessage where
  chat_key : String
  sender_nickname : String
deriving DecidableEq, Repr

/-- Synthetic prompt message, Union UserMessage AiMessage in the source. -/
inductive Msg where
  | UserMessage (text : String)
  | AiMessage (text : String)
deriving DecidableEq, Repr

/-- Kind of a resolved action (ChatResponseType). -/
inductive ChatResponseType where
  | TEXT
  | SCRIPT
deriving DecidableEq, Repr

/-- One resolved action: a kind and a content payload. -/
structure RetData where
  type : ChatResponseType
  content : String
deriving DecidableEq, Repr

/-- Structured prompt assembled per invocation: persona preset, the
example embedding the one-time token, the chat key, the context window
and the addition messages spliced at creation time. -/
structure Prompt where
  preset : String
  exampleToken : String
  chatKey : String
  window : List DBChatMessage
  addition : List Msg
deriving DecidableEq, Repr

/-- Configuration surface consumed by the loop (config.*). -/
structure Config where
  AI_CHAT_PRESET_SETTING : String
  AI_CHAT_CONTEXT_EXPIRE_SECONDS : Int
  AI_CHAT_CONTEXT_MAX_LENGTH : Nat
  AI_CHAT_LLM_API_MAX_RETRIES : Nat
  AI_SCRIPT_MAX_RETRY_TIMES : Nat
  DEBUG_IN_CHAT : Bool
deriving Repr

/-- External collaborators and sources of nondeterminism, as oracles. -/
structure Env where
  urandom : Nat → Fin 256
  now : Int
  history : List DBChatMessage
  llm : Nat → Except String String
  resolve : String → Except String (List RetData)
  runCode : String → String → String
  codeRunErrorFlag : String
  saveOk : Bool

/-- Observable side effects of an invocation, in order. The invokeAgent
event is instrumentation marking the entry of agent_run with its depth,
its random-stream cursor, the freshly generated one-time token and the
assembled prompt. -/
inductive Event where
  | invokeAgent (retry_depth cursor : Nat) (token : String) (prompt : Prompt)
  | sendMessage (chat_key text : String)
  | sendAgentMessage (chat_key text : String) (record : Option Bool)
  | llmCall (idx : Nat)
  | logError (text : String)
  | saveLatest
  | saveArchive
  | runCode (code chat_key : String)
deriving DecidableEq, Repr

/-- Mutable state threaded through an invocation chain: the heap of
addition-message lists (Python list objects addressed by reference),
the global model-call counter and the random-stream cursor. -/
structure AState where
  heap : List (List Msg)
  llmIdx : Nat
  randIdx : Nat
deriving DecidableEq, Repr

/-- Exceptions an invocation can raise to its caller. -/
inductive AgentError where
  | sceneRuntimeError (text : String)
  | resolveError (text : String)
  | saveError
  | outOfFuel
deriving DecidableEq, Repr

/-- Result of an invocation: its event trace, the final state and the
exception it raised, if any. -/
structure RunOut where
  trace : List Event
  state : AState
  err : Option AgentError
deriving DecidableEq, Repr

/-- Python s.endswith(t) on code points. -/
def pyEndsWith (s t : String) : Bool :=
  s.data.drop (s.data.length - t.data.length) == t.data

/-- Python slice s[:-len(t)] on code points (for len(t) = 0 the slice
s[:-0] is s[:0], the empty string). -/
def pyCutSuffix (s t : String) : String :=
  if t.data.length = 0 then "" else String.mk (s.data.take (s.data.length - t.data.length))

/-- Python slice l[-n:]: the last n elements, except that l[-0:] is the
whole list. -/
def pyTakeLast (n : Nat) (l : List α) : List α :=
  if n = 0 then l else l.drop (l.length - n)

/-- SQL ORDER BY send_timestamp DESC, modelled as a sort by the reflected
timestamp order. -/
def orderByTimestampDesc (l : List DBChatMessage) : List DBChatMessage :=
  List.insertionSort (fun a b => b.send_timestamp ≤ a.send_timestamp) l

/-- Context Window Builder, lines 81 to 91 of the source: filter the
history by chat key and by send_timestamp at least now minus the expire
window, order newest first, limit to the configured maximum, reverse to
chronological order, then re-apply a trailing limit of the same maximum. -/
def recent_chat_messages (env : Env) (chat_key : String) (cfg : Config) : List DBChatMessage :=
  let sta_timestamp : Int := env.now - cfg.AI_CHAT_CONTEXT_EXPIRE_SECONDS
  pyTakeLast cfg.AI_CHAT_CONTEXT_MAX_LENGTH
    (((orderByTimestampDesc
        (env.history.filter
          (fun m => m.chat_key == chat_key && sta_timestamp ≤ m.send_timestamp))).take
      cfg.AI_CHAT_CONTEXT_MAX_LENGTH).reverse)

/-- Hexadecimal digit characters, lowercase, as bytes.hex() produces. -/
def hexDigitChar (n : Nat) : Char :=
  if n = 0 then '0' else if n = 1 then '1' else if n = 2 then '2'
  else if n = 3 then '3' else if n = 4 then '4' else if n = 5 then '5'
  else if n = 6 then '6' else if n = 7 then '7' else if n = 8 then '8'
  else if n = 9 then '9' else if n = 10 then 'a' else if n = 11 then 'b'
  else if n = 12 then 'c' else if n = 13 then 'd' else if n = 14 then 'e'
  else 'f'

/-- Two lowercase hex characters of one byte. -/
def byteToHex (b : Fin 256) : List Char :=
  [hexDigitChar (b.val / 16), hexDigitChar (b.val % 16)]

/-- Python bytes.hex(): lowercase hex encoding of a byte string. -/
def bytesToHex (bs : List (Fin 256)) : String :=
  String.mk (bs.flatMap byteToHex)

/-- Four oracle bytes at cursor c: the view of os.urandom(4) drawn when
the random-stream cursor stands at c. -/
def randWindow (env : Env) (c : Nat) : List (Fin 256) :=
  [env.urandom c, env.urandom (c + 1), env.urandom (c + 2), env.urandom (c + 3)]


/-- Append one message to the Python list object at reference r. -/
def heapAppend (h : List (List Msg)) (r : Nat) (m : Msg) : List (List Msg) :=
  h.set r (h.getD r [] ++ [m])

/-- Model Invoker loop, lines 134 to 143 of the source: up to k attempts,
each calling the backend at the next global call index; a failure is
logged and swallowed, a success breaks out with the raw response. Returns
the emitted events, the new call index and the raw response, if any. -/
def llmLoop (env : Env) : Nat → Nat → List Event × Nat × Option String
  | 0, idx => ([], idx, none)
  | k + 1, idx =>
    match env.llm idx with
    | Except.ok raw => ([Event.llmCall idx], idx + 1, some raw)
    | Except.error e =>
      let rest := llmLoop env k (idx + 1)
      (Event.llmCall idx :: Event.logError ("LLM API error: " ++ e) :: rest.1, rest.2.1, rest.2.2)

/-- Python expression err_msg or a default: the empty string is falsy. -/
def errShownOf (err_msg : String) : String :=
  if err_msg = "" then "No error message" else err_msg

/-- Assistant-authored addition message carrying the failing script. -/
def scriptAiMsg (ret_content : String) : Msg :=
  Msg.AiMessage ("script:>\n" ++ ret_content)

/-- User-authored addition message asking to retry and keep the format. -/
def retryUserMsg (shown : String) : Msg :=
  Msg.UserMessage
    ("Code run error: " ++ shown ++ "\nPlease maintain agreed reply format and try again.")

/-- User-authored addition message asking to give up and explain. -/
def giveupUserMsg (shown : String) : Msg :=
  Msg.UserMessage
    ("Code run error: " ++ shown ++ "\nThe number of retries has reached the limit, you should give up retries and explain the problem you are experiencing.")

/-- Action Executor, function agent_exec_result of the source, lines 170
to 212, parametrised by the recursive re-entry runRec so that the
recursion can be tied structurally to a fuel argument. r is the reference
of the addition-message list object. -/
def execResultCore
    (runRec : Config → Env → ChatMessage → Option Nat → Nat → AState → RunOut)
    (cfg : Config) (env : Env) (ret_type : ChatResponseType) (ret_content : String)
    (chat_message : ChatMessage) (r : Nat) (retry_depth : Nat) (st : AState) : RunOut :=
  match ret_type with
  | ChatResponseType.TEXT =>
    ⟨[Event.sendAgentMessage chat_message.chat_key ret_content (some true)], st, none⟩
  | ChatResponseType.SCRIPT =>
    let debugEvs : List Event :=
      if cfg.DEBUG_IN_CHAT then [Event.sendMessage chat_message.chat_key "[Debug] 执行程式中🖥️..."] else []
    let result : String := env.runCode ret_content chat_message.chat_key
    let evs : List Event := debugEvs ++ [Event.runCode ret_content chat_message.chat_key]
    if pyEndsWith result env.codeRunErrorFlag then
      let err_msg : String := pyCutSuffix result env.codeRunErrorFlag
      let shown : String := errShownOf err_msg
      let heap1 := heapAppend st.heap r (scriptAiMsg ret_content)
      let umsg : Msg :=
        if retry_depth < cfg.AI_SCRIPT_MAX_RETRY_TIMES - 1 then retryUserMsg shown
        else giveupUserMsg shown
      let heap2 := heapAppend heap1 r umsg
      let st1 : AState := { st with heap := heap2 }
      if retry_depth < cfg.AI_SCRIPT_MAX_RETRY_TIMES then
        let debugEvs2 : List Event :=
          if cfg.DEBUG_IN_CHAT then
            [Event.sendMessage chat_message.chat_key
              ("[Debug] 程式运行出错: " ++ shown ++ "\n正在调试中...(" ++
                toString (retry_depth + 1) ++ "/" ++ toString cfg.AI_SCRIPT_MAX_RETRY_TIMES ++ ")")]
          else []
        let o := runRec cfg env chat_message (some r) (retry_depth + 1) st1
        ⟨evs ++ debugEvs2 ++ o.trace, o.state, o.err⟩
      else
        ⟨evs ++ [Event.sendMessage chat_message.chat_key "程式运行出错，达到最大重试次数，停止重试。"], st1, none⟩
    else
      ⟨evs, st, none⟩

/-- Sequential execution of the resolved actions, lines 164 to 165 of the
source: each action runs after the previous one completed; an exception
raised by an action (through its recursive invocation) propagates and
skips the remaining actions. -/
def execSeq
    (runRec : Config → Env → ChatMessage → Option Nat → Nat → AState → RunOut)
    (cfg : Config) (env : Env) (chat_message : ChatMessage) (r : Nat) (retry_depth : Nat) :
    List RetData → AState → RunOut
  | [], st => ⟨[], st, none⟩
  | rd :: rest, st =>
    let o1 := execResultCore runRec cfg env rd.type rd.content chat_message r retry_depth st
    match o1.err with
    | some e => ⟨o1.trace, o1.state, some e⟩
    | none =>
      let o2 := execSeq runRec cfg env chat_message r retry_depth rest o1.state
      ⟨o1.trace ++ o2.trace, o2.state, o2.err⟩

/-- Normalisation of the addition_prompt_message argument, lines 64 to
65 of the source: a missing argument or an empty list object is replaced
by a freshly allocated empty list object; a non-empty list object is
kept (and will be mutated in place). Returns the reference to use and
the possibly extended heap. -/
def allocAddition (add : Option Nat) (st : AState) : Nat × AState :=
  match add with
  | none => (st.heap.length, { st with heap := st.heap ++ [[]] })
  | some j =>
    if (st.heap.getD j []).isEmpty then
      (st.heap.length, { st with heap := st.heap ++ [[]] })
    else (j, st)

/-- Agent loop, function agent_run of the source, lines 54 to 167,
structurally recursive over an explicit fuel argument consumed at each
recursive re-entry. Steps: generate the one-time token from four fresh
oracle bytes; normalise the addition-message argument (a missing or
empty list becomes a fresh empty list object); optionally send the debug
notice; build the context window and the prompt; run the model-call
retry loop; on exhaustion send the apology and raise; resolve the raw
response, raising on failure; persist the prompt and response pair to
the latest and the archival slots; execute the resolved actions. -/
def agent_runF :
    Nat → Config → Env → ChatMessage → Option Nat → Nat → AState → RunOut
  | 0, _, _, _, _, _, st => ⟨[], st, some AgentError.outOfFuel⟩
  | f + 1, cfg, env, chat_message, addition, retry_depth, st0 =>
    let cursor := st0.randIdx
    let one_time_code := bytesToHex (randWindow env cursor)
    let st1 : AState := { st0 with randIdx := cursor + 4 }
    let ralloc : Nat × AState := allocAddition addition st1
    let r := ralloc.1
    let st2 := ralloc.2
    let debugEvs : List Event :=
      if cfg.DEBUG_IN_CHAT then [Event.sendMessage chat_message.chat_key "[Debug] 思考中🤔..."] else []
    let window := recent_chat_messages env chat_message.chat_key cfg
    let prompt : Prompt :=
      { preset := cfg.AI_CHAT_PRESET_SETTING
        exampleToken := one_time_code
        chatKey := chat_message.chat_key
        window := window
        addition := st2.heap.getD r [] }
    let lout := llmLoop env cfg.AI_CHAT_LLM_API_MAX_RETRIES st2.llmIdx
    let st3 : AState := { st2 with llmIdx := lout.2.1 }
    let pre : List Event :=
      Event.invokeAgent retry_depth cursor one_time_code prompt :: debugEvs ++ lout.1
    match lout.2.2 with
    | none =>
      ⟨pre ++ [Event.sendAgentMessage chat_message.chat_key "哎呀，请求模型发生了未知错误，等会儿再试试吧 ~" none],
        st3, some (AgentError.sceneRuntimeError "LLM API error: 达到最大重试次数，停止重试。")⟩
    | some raw =>
      match env.resolve raw with
      | Except.error e =>
        ⟨pre ++ [Event.logError ("解析结果出错: " ++ e)], st3,
          some (AgentError.resolveError ("解析结果出错: " ++ e))⟩
      | Except.ok ret_list =>
        if env.saveOk then
          let o := execSeq (agent_runF f) cfg env chat_message r retry_depth ret_list st3
          ⟨pre ++ [Event.saveLatest, Event.saveArchive] ++ o.trace, o.state, o.err⟩
        else
          ⟨pre, st3, some AgentError.saveError⟩

/-- Entry point agent_run: the fuel covers the whole retry chain, since
each recursive re-entry requires retry_depth below the configured
maximum and increments it. -/
def agent_run (cfg : Config) (env : Env) (chat_message : ChatMessage)
    (addition : Option Nat) (retry_depth : Nat) (st : AState) : RunOut :=
  agent_runF
    (if retry_depth ≤ cfg.AI_SCRIPT_MAX_RETRY_TIMES
      then cfg.AI_SCRIPT_MAX_RETRY_TIMES + 1 - retry_depth else 1)
    cfg env chat_message addition retry_depth st

/-- Entry point agent_exec_result: the recursive re-entry runs with fuel
covering the remaining chain from depth retry_depth + 1. -/
def agent_exec_result (cfg : Config) (env : Env) (ret_type : ChatResponseType)
    (ret_content : String) (chat_message : ChatMessage) (r : Nat)
    (retry_depth : Nat) (st : AState) : RunOut :=
  execResultCore
    (fun cfg env m add d st =>
      agent_runF
        (if retry_depth < cfg.AI_SCRIPT_MAX_RETRY_TIMES
          then cfg.AI_SCRIPT_MAX_RETRY_TIMES - retry_depth else 1)
        cfg env m add d st)
    cfg env ret_type ret_content chat_message r retry_depth st

/-- Test whether an event is an agent-loop entry (an invocation). -/
def isInvokeEv : Event → Bool
  | Event.invokeAgent _ _ _ _ => true
  | _ => false

/-- Test whether an event is an agent-loop entry at the given depth. -/
def isInvokeAt (d : Nat) : Event → Bool
  | Event.invokeAgent d0 _ _ _ => d0 == d
  | _ => false

/-- Test whether an event is a sandbox execution. -/
def isRunCodeEv : Event → Bool
  | Event.runCode _ _ => true
  | _ => false

/-- Test whether an event is a model-backend call. -/
def isLlmCallEv : Event → Bool
  | Event.llmCall _ => true
  | _ => false

/-- Test whether an event is a log line. -/
def isLogErrorEv : Event → Bool
  | Event.logError _ => true
  | _ => false

/-- Test whether an event writes the latest prompt/response slot. -/
def isSaveLatestEv : Event → Bool
  | Event.saveLatest => true
  | _ => false

/-- Test whether an event writes a timestamp-named archival slot. -/
def isSaveArchiveEv : Event → Bool
  | Event.saveArchive => true
  | _ => false

/-- Test whether an event is a send_agent_message call (any record flag). -/
def isAgentSendEv : Event → Bool
  | Event.sendAgentMessage _ _ _ => true
  | _ => false

/-- Test whether an event is a send_agent_message call with record set. -/
def isRecordSendEv : Event → Bool
  | Event.sendAgentMessage _ _ (some true) => true
  | _ => false

/-- Test whether an event is the user-visible model-failure apology. -/
def isApologyEv : Event → Bool
  | Event.sendAgentMessage _ t _ => t == "哎呀，请求模型发生了未知错误，等会儿再试试吧 ~"
  | _ => false

/-- Test whether an event is the terminal max-retries notice. -/
def isTerminalNoticeEv : Event → Bool
  | Event.sendMessage _ t => t == "程式运行出错，达到最大重试次数，停止重试。"
  | _ => false

/-- Random-stream cursors of the invocation-entry events of a trace, in
trace order. -/
def invokeCursors (tr : List Event) : List Nat :=
  tr.filterMap (fun e =>
    match e with
    | Event.invokeAgent _ c _ _ => some c
    | _ => none)

/-- Cursors lo ≤ c₁, c₁ + 4 ≤ c₂, …, last + 4 ≤ hi: each invocation in
the list consumes the four fresh bytes at its own cursor, the windows
are pairwise disjoint, and all lie between lo and hi. -/
def Chained : Nat → List Nat → Nat → Prop
  | lo, [], hi => lo ≤ hi
  | lo, c :: cs, hi => lo ≤ c ∧ Chained (c + 4) cs hi

/-- Lowercase hexadecimal alphabet. -/
def hexChars : List Char := "0123456789abcdef".data

/-- Concrete configuration for witnesses: script-retry maximum 2, two
model-call attempts, debug notifications off. -/
def cfgT : Config :=
  { AI_CHAT_PRESET_SETTING := "preset"
    AI_CHAT_CONTEXT_EXPIRE_SECONDS := 100
    AI_CHAT_CONTEXT_MAX_LENGTH := 3
    AI_CHAT_LLM_API_MAX_RETRIES := 2
    AI_SCRIPT_MAX_RETRY_TIMES := 2
    DEBUG_IN_CHAT := false }

/-- Concrete environment for witnesses: deterministic byte oracle, a
model that answers at once with one script action, a sandbox that always
fails with the error marker. -/
def envT : Env :=
  { urandom := fun i => Fin.ofNat i
    now := 1000
    history := [{ chat_key := "ck", send_timestamp := 950, content := "hi" },
                { chat_key := "ck", send_timestamp := 990, content := "there" }]
    llm := fun _ => Except.ok "raw"
    resolve := fun _ => Except.ok [{ type := ChatResponseType.SCRIPT, content := "code" }]
    runCode := fun _ _ => "boomERR"
    codeRunErrorFlag := "ERR"
    saveOk := true }

/-- Concrete incoming message for witnesses. -/
def msgT : ChatMessage := { chat_key := "ck", sender_nickname := "nick" }

/-- Concrete initial state for witnesses: one allocated empty
addition-message list. -/
def stT : AState := { heap := [[]], llmIdx := 0, randIdx := 0 }

/-- Environment whose model backend fails on every attempt. -/
def envFail : Env :=
  { envT with llm := fun _ => Except.error "backend down" }

/-- Environment whose model backend fails once and then answers with a
response that resolves to one text action. -/
def envTextOneFail : Env :=
  { envT with
    llm := fun i => if i = 0 then Except.error "transient" else Except.ok "raw"
    resolve := fun _ => Except.ok [{ type := ChatResponseType.TEXT, content := "Hello" }] }

/-- Environment like envTextOneFail but whose persistence raises. -/
def envSaveFail : Env :=
  { envTextOneFail with saveOk := false }

/-- Environment whose model response does not resolve (malformed grammar
or one-time-token mismatch in the resolver collaborator). -/
def envBadResolve : Env :=
  { envT with resolve := fun _ => Except.error "one-time code mismatch" }

/-- Environment whose sandbox succeeds (no error-marker suffix). -/
def envScriptOk : Env :=
  { envT with runCode := fun _ _ => "all good" }

/-- Property of a recursive re-entry: it only ever appends to the list
objects in the heap (Python code only calls append on the addition
messages). -/
def HeapMonoRec (runRec : Config → Env → ChatMessage → Option Nat → Nat → AState → RunOut) : Prop :=
  ∀ cfg env m add d st j, ∃ suf,
    ((runRec cfg env m add d st).state.heap.getD j []) = st.heap.getD j [] ++ suf

/-- Property of a recursive re-entry: the heap never shrinks. -/
def LenMonoRec (runRec : Config → Env → ChatMessage → Option Nat → Nat → AState → RunOut) : Prop :=
  ∀ cfg env m add d st,
    st.heap.length ≤ (runRec cfg env m add d st).state.heap.length

/-- Property of a recursive re-entry: a list object that is not the one
passed as the addition-message argument (unless that one is empty and
hence replaced by a fresh object) is left untouched. -/
def FramePresRec (runRec : Config → Env → ChatMessage → Option Nat → Nat → AState → RunOut) : Prop :=
  ∀ cfg env m add d st j, j < st.heap.length →
    (∀ i, add = some i → st.heap.getD i [] ≠ [] → i ≠ j) →
    ((runRec cfg env m add d st).state.heap.getD j []) = st.heap.getD j []

/-- Property of a trace: every invocation-entry event carries the token
obtained by hex-encoding the four oracle bytes at its own cursor. -/
def TokensOkIn (env : Env) (tr : List Event) : Prop :=
  ∀ d c tok p, Event.invokeAgent d c tok p ∈ tr → tok = bytesToHex (randWindow env c)

/-- Property of a recursive re-entry: its invocation entries consume
pairwise disjoint four-byte windows of the oracle stream starting at the
entry cursor, and every entry carries the token of its own window. -/
def RandOkRec (runRec : Config → Env → ChatMessage → Option Nat → Nat → AState → RunOut) : Prop :=
  ∀ cfg env m add d st,
    Chained st.randIdx (invokeCursors (runRec cfg env m add d st).trace)
      ((runRec cfg env m add d st).state.randIdx) ∧
    TokensOkIn env (runRec cfg env m add d st).trace

theorem pyTakeLast_sublist (n : Nat) (l : List α) : (pyTakeLast n l).Sublist l := by
  unfold pyTakeLast
  split
  · exact List.Sublist.refl l
  · exact List.drop_sublist _ l

/-- C2: the context window holds at most the configured maximum number
of turns, every turn has timestamp at least now minus the look-back
window, and the turns are in chronological ascending order; the turn
limit is applied both before and after the reversal. -/
theorem C2_context_window (env : Env) (chat_key : String) (cfg : Config) :
    (recent_chat_messages env chat_key cfg).length ≤ cfg.AI_CHAT_CONTEXT_MAX_LENGTH ∧
    (∀ m ∈ recent_chat_messages env chat_key cfg,
      env.now - cfg.AI_CHAT_CONTEXT_EXPIRE_SECONDS ≤ m.send_timestamp) ∧
    (recent_chat_messages env chat_key cfg).Pairwise
      (fun a b => a.send_timestamp ≤ b.send_timestamp) := by
  have hr : ∀ (l : List DBChatMessage),
      List.Pairwise (fun a b => b.send_timestamp ≤ a.send_timestamp) (orderByTimestampDesc l) := by
    intro l
    haveI : IsTotal DBChatMessage (fun a b => b.send_timestamp ≤ a.send_timestamp) :=
      ⟨fun a b => le_total b.send_timestamp a.send_timestamp⟩
    haveI : IsTrans DBChatMessage (fun a b => b.send_timestamp ≤ a.send_timestamp) :=
      ⟨fun _ _ _ hab hbc => le_trans hbc hab⟩
    exact List.sorted_insertionSort _ l
  refine ⟨?_, ?_, ?_⟩
  · have h1 : (recent_chat_messages env chat_key cfg).Sublist
        ((((orderByTimestampDesc (env.history.filter
          (fun m => m.chat_key == chat_key &&
            env.now - cfg.AI_CHAT_CONTEXT_EXPIRE_SECONDS ≤ m.send_timestamp))).take
            cfg.AI_CHAT_CONTEXT_MAX_LENGTH).reverse)) := pyTakeLast_sublist _ _
    have h2 := h1.length_le
    simpa using le_trans h2 (by
      rw [List.length_reverse]
      exact List.length_take_le _ _)
  · intro m hm
    have h1 := (pyTakeLast_sublist _ _).subset hm
    rw [List.mem_reverse] at h1
    have h2 := (List.take_sublist _ _).subset h1
    unfold orderByTimestampDesc at h2
    rw [(List.perm_insertionSort _ _).mem_iff] at h2
    rw [List.mem_filter] at h2
    have := h2.2
    simp only [Bool.and_eq_true, decide_eq_true_eq, beq_iff_eq] at this
    exact this.2
  · have h1 := hr (env.history.filter
      (fun m => m.chat_key == chat_key &&
        env.now - cfg.AI_CHAT_CONTEXT_EXPIRE_SECONDS ≤ m.send_timestamp))
    have h2 := h1.sublist (List.take_sublist cfg.AI_CHAT_CONTEXT_MAX_LENGTH _)
    have h3 : List.Pairwise (fun a b => a.send_timestamp ≤ b.send_timestamp)
        (((orderByTimestampDesc _).take cfg.AI_CHAT_CONTEXT_MAX_LENGTH).reverse) :=
      List.pairwise_reverse.mpr h2
    exact h3.sublist (pyTakeLast_sublist _ _)

/-- C8: a text action makes exactly one send call carrying the text with
record set, and does not invoke the sandbox. -/
theorem C8_text_action (cfg : Config) (env : Env) (ret_content : String)
    (chat_message : ChatMessage) (r retry_depth : Nat) (st : AState) :
    agent_exec_result cfg env ChatResponseType.TEXT ret_content chat_message r retry_depth st =
      ⟨[Event.sendAgentMessage chat_message.chat_key ret_content (some true)], st, none⟩ := rfl

/-- C9: a script action whose sandbox result lacks the error marker has
no further effect: state unchanged, no exception, and the trace is only
the optional debug notice plus the sandbox run itself. -/
theorem C9_script_no_error (cfg : Config) (env : Env) (ret_content : String)
    (chat_message : ChatMessage) (r retry_depth : Nat) (st : AState)
    (h : pyEndsWith (env.runCode ret_content chat_message.chat_key) env.codeRunErrorFlag = false) :
    agent_exec_result cfg env ChatResponseType.SCRIPT ret_content chat_message r retry_depth st =
      ⟨(if cfg.DEBUG_IN_CHAT then
          [Event.sendMessage chat_message.chat_key "[Debug] 执行程式中🖥️..."] else []) ++
        [Event.runCode ret_content chat_message.chat_key], st, none⟩ := by
  simp [agent_exec_result, execResultCore, h]

theorem C9_script_no_error_witness :
    pyEndsWith (envScriptOk.runCode "code" msgT.chat_key) envScriptOk.codeRunErrorFlag = false ∧
    agent_exec_result cfgT envScriptOk ChatResponseType.SCRIPT "code" msgT 0 0 stT =
      ⟨(if cfgT.DEBUG_IN_CHAT then
          [Event.sendMessage msgT.chat_key "[Debug] 执行程式中🖥️..."] else []) ++
        [Event.runCode "code" msgT.chat_key], stT, none⟩ :=
  ⟨by decide, C9_script_no_error cfgT envScriptOk "code" msgT 0 0 stT (by decide)⟩

/-- C1 as stated is false on the code: with maximum 2, a script failure
at depth 1 = maximum − 1 does trigger a further recursive invocation
(the trace holds an agent-loop entry), although depth + 1 < maximum
fails there. -/
theorem C1_counterexample :
    (1 + 1 < cfgT.AI_SCRIPT_MAX_RETRY_TIMES ↔ False) ∧
    (agent_exec_result cfgT envT ChatResponseType.SCRIPT "code" msgT 0 1 stT).trace.countP
      isInvokeEv = 1 := by decide

theorem agent_runF_head_invoke (f : Nat) (cfg : Config) (env : Env) (m : ChatMessage)
    (add : Option Nat) (d : Nat) (st : AState) :
    ∃ p tl, (agent_runF (f + 1) cfg env m add d st).trace =
      Event.invokeAgent d st.randIdx (bytesToHex (randWindow env st.randIdx)) p :: tl := by
  simp only [agent_runF]
  repeat' split
  all_goals simp

/-- C1 amended: a failed script action triggers the recursive
re-invocation (at Retry Depth + 1, with extended addition messages) if
and only if Retry Depth < the configured maximum, that is Retry Depth
+ 1 ≤ the maximum; a failure at depth ≥ the maximum triggers no
recursive invocation and sends exactly one terminal max-retries notice. -/
theorem invoke_mem_pre_append (f : Nat) (cfg : Config) (env : Env) (m : ChatMessage)
    (add : Option Nat) (d : Nat) (st : AState) (pre : List Event) :
    ∃ e ∈ pre ++ (agent_runF (f + 1) cfg env m add d st).trace,
      isInvokeAt d e = true := by
  obtain ⟨p, tl, htl⟩ := agent_runF_head_invoke f cfg env m add d st
  refine ⟨Event.invokeAgent d st.randIdx (bytesToHex (randWindow env st.randIdx)) p, ?_, ?_⟩
  · refine List.mem_append_right _ ?_
    rw [htl]
    exact List.mem_cons_self _ _
  · simp [isInvokeAt]

theorem C1_retry_condition (cfg : Config) (env : Env) (ret_content : String)
    (chat_message : ChatMessage) (r retry_depth : Nat) (st : AState)
    (hflag : pyEndsWith (env.runCode ret_content chat_message.chat_key) env.codeRunErrorFlag = true) :
    ((∃ e ∈ (agent_exec_result cfg env ChatResponseType.SCRIPT ret_content chat_message
        r retry_depth st).trace, isInvokeAt (retry_depth + 1) e = true) ↔
      retry_depth < cfg.AI_SCRIPT_MAX_RETRY_TIMES) ∧
    (cfg.AI_SCRIPT_MAX_RETRY_TIMES ≤ retry_depth →
      (agent_exec_result cfg env ChatResponseType.SCRIPT ret_content chat_message
        r retry_depth st).trace.countP isInvokeEv = 0 ∧
      (agent_exec_result cfg env ChatResponseType.SCRIPT ret_content chat_message
        r retry_depth st).trace.countP isTerminalNoticeEv = 1) := by
  by_cases hd : retry_depth < cfg.AI_SCRIPT_MAX_RETRY_TIMES
  · obtain ⟨k, hk⟩ : ∃ k, cfg.AI_SCRIPT_MAX_RETRY_TIMES - retry_depth = k + 1 :=
      ⟨cfg.AI_SCRIPT_MAX_RETRY_TIMES - retry_depth - 1, by omega⟩
    constructor
    · rw [iff_true_right hd]
      simp only [agent_exec_result, execResultCore, hflag, hd, if_true, hk]
      exact invoke_mem_pre_append k cfg env chat_message (some r) (retry_depth + 1) _ _
    · intro hle
      omega
  · constructor
    · simp only [agent_exec_result, execResultCore, hflag, if_neg hd]
      rw [iff_false_right hd]
      rintro ⟨e, he, hinv⟩
      rcases List.mem_append.mp he with h1 | h2
      · rcases List.mem_append.mp h1 with h3 | h4
        · split at h3 <;> simp_all [isInvokeAt]
        · simp_all [isInvokeAt]
      · simp_all [isInvokeAt]
    · intro _
      simp only [agent_exec_result, execResultCore, hflag, if_neg hd]
      by_cases hdbg : cfg.DEBUG_IN_CHAT <;>
        simp [hdbg, List.countP_append, List.countP_cons, isInvokeEv, isTerminalNoticeEv]

theorem C1_retry_condition_witness :
    pyEndsWith (envT.runCode "code" msgT.chat_key) envT.codeRunErrorFlag = true ∧
    (((∃ e ∈ (agent_exec_result cfgT envT ChatResponseType.SCRIPT "code" msgT 0 1 stT).trace,
        isInvokeAt 2 e = true) ↔ 1 < cfgT.AI_SCRIPT_MAX_RETRY_TIMES) ∧
      (cfgT.AI_SCRIPT_MAX_RETRY_TIMES ≤ 1 →
        (agent_exec_result cfgT envT ChatResponseType.SCRIPT "code" msgT 0 1 stT).trace.countP
          isInvokeEv = 0 ∧
        (agent_exec_result cfgT envT ChatResponseType.SCRIPT "code" msgT 0 1 stT).trace.countP
          isTerminalNoticeEv = 1)) :=
  ⟨by decide, C1_retry_condition cfgT envT "code" msgT 0 1 stT (by decide)⟩

theorem llmLoop_all_fail (env : Env) (hfail : ∀ i, (env.llm i).isOk = false) :
    ∀ (k idx : Nat),
      (llmLoop env k idx).2.2 = none ∧
      (llmLoop env k idx).1.countP isLlmCallEv = k ∧
      (llmLoop env k idx).1.countP isLogErrorEv = k ∧
      (∀ e ∈ (llmLoop env k idx).1, isLlmCallEv e = true ∨ isLogErrorEv e = true) := by
  intro k
  induction k with
  | zero => intro idx; simp [llmLoop]
  | succ n ih =>
    intro idx
    have hf := hfail idx
    rcases hl : env.llm idx with e | raw
    · have h1 := ih (idx + 1)
      simp only [llmLoop, hl]
      refine ⟨h1.1, ?_, ?_, ?_⟩
      · simp [List.countP_cons, isLlmCallEv, isLogErrorEv, h1.2.1]
      · simp [List.countP_cons, isLlmCallEv, isLogErrorEv, h1.2.2.1]
      · intro e he
        rcases he with _ | ⟨_, he⟩
        · exact Or.inl rfl
        · rcases he with _ | ⟨_, he⟩
          · exact Or.inr rfl
          · exact h1.2.2.2 e (by assumption)
    · rw [hl] at hf
      simp [Except.isOk, Except.toBool] at hf

theorem allocAddition_llmIdx (add : Option Nat) (st : AState) :
    (allocAddition add st).2.llmIdx = st.llmIdx := by
  rcases add with _ | j
  · rfl
  · simp only [allocAddition]
    split <;> rfl

theorem allocAddition_randIdx (add : Option Nat) (st : AState) :
    (allocAddition add st).2.randIdx = st.randIdx := by
  rcases add with _ | j
  · rfl
  · simp only [allocAddition]
    split <;> rfl

theorem allocAddition_heap_len (add : Option Nat) (st : AState) :
    st.heap.length ≤ (allocAddition add st).2.heap.length := by
  rcases add with _ | j
  · simp [allocAddition]
  · simp only [allocAddition]
    split <;> simp

theorem allocAddition_ref_lt (add : Option Nat) (st : AState) :
    (allocAddition add st).1 < (allocAddition add st).2.heap.length ∨
      (allocAddition add st).2.heap.getD (allocAddition add st).1 [] = [] := by
  rcases add with _ | j
  · left
    simp [allocAddition]
  · simp only [allocAddition]
    split
    · left
      simp
    · rcases Nat.lt_or_ge j st.heap.length with h | h
      · left
        simpa using h
      · right
        simp [List.getD_eq_getElem?_getD, List.getElem?_eq_none h]

theorem agent_runF_llm_fail_shape (f : Nat) (cfg : Config) (env : Env) (m : ChatMessage)
    (add : Option Nat) (d : Nat) (st : AState)
    (hfail : ∀ i, (env.llm i).isOk = false) :
    ∃ p stf, agent_runF (f + 1) cfg env m add d st =
      ⟨Event.invokeAgent d st.randIdx (bytesToHex (randWindow env st.randIdx)) p ::
        (((if cfg.DEBUG_IN_CHAT = true then [Event.sendMessage m.chat_key "[Debug] 思考中🤔..."] else []) ++
          (llmLoop env cfg.AI_CHAT_LLM_API_MAX_RETRIES st.llmIdx).1) ++
          [Event.sendAgentMessage m.chat_key "哎呀，请求模型发生了未知错误，等会儿再试试吧 ~" none]),
        stf, some (AgentError.sceneRuntimeError "LLM API error: 达到最大重试次数，停止重试。")⟩ := by
  have hnone := (llmLoop_all_fail env hfail cfg.AI_CHAT_LLM_API_MAX_RETRIES st.llmIdx).1
  simp only [agent_runF, allocAddition_llmIdx, hnone]
  exact ⟨_, _, rfl⟩

theorem countP_llm_trace_zero (env : Env) (k idx : Nat) (p : Event → Bool)
    (hp1 : ∀ i, p (Event.llmCall i) = false) (hp2 : ∀ t, p (Event.logError t) = false)
    (hmem : ∀ e ∈ (llmLoop env k idx).1, isLlmCallEv e = true ∨ isLogErrorEv e = true) :
    (llmLoop env k idx).1.countP p = 0 := by
  rw [List.countP_eq_zero]
  intro e he
  rcases hmem e he with h | h <;> cases e <;> simp_all [isLlmCallEv, isLogErrorEv]

/-- C4: when the model backend fails on every attempt, the loop makes
exactly the configured maximum number of attempts, logs each failure,
sends exactly one user-visible message (the apology), raises exactly one
fatal scene error, and executes no resolved action: no sandbox run, no
prompt/response persistence. -/
theorem C4_backend_exhaustion (cfg : Config) (env : Env) (chat_message : ChatMessage)
    (addition : Option Nat) (retry_depth : Nat) (st : AState)
    (hfail : ∀ i, (env.llm i).isOk = false) :
    (agent_run cfg env chat_message addition retry_depth st).err =
      some (AgentError.sceneRuntimeError "LLM API error: 达到最大重试次数，停止重试。") ∧
    (agent_run cfg env chat_message addition retry_depth st).trace.countP isLlmCallEv =
      cfg.AI_CHAT_LLM_API_MAX_RETRIES ∧
    (agent_run cfg env chat_message addition retry_depth st).trace.countP isLogErrorEv =
      cfg.AI_CHAT_LLM_API_MAX_RETRIES ∧
    (agent_run cfg env chat_message addition retry_depth st).trace.countP isAgentSendEv = 1 ∧
    (agent_run cfg env chat_message addition retry_depth st).trace.countP isApologyEv = 1 ∧
    (agent_run cfg env chat_message addition retry_depth st).trace.countP isRunCodeEv = 0 ∧
    (agent_run cfg env chat_message addition retry_depth st).trace.countP isSaveLatestEv = 0 ∧
    (agent_run cfg env chat_message addition retry_depth st).trace.countP isSaveArchiveEv = 0 := by
  obtain ⟨k, hk⟩ : ∃ k, (if retry_depth ≤ cfg.AI_SCRIPT_MAX_RETRY_TIMES
      then cfg.AI_SCRIPT_MAX_RETRY_TIMES + 1 - retry_depth else 1) = k + 1 :=
    ⟨(if retry_depth ≤ cfg.AI_SCRIPT_MAX_RETRY_TIMES
        then cfg.AI_SCRIPT_MAX_RETRY_TIMES + 1 - retry_depth else 1) - 1, by
      split <;> omega⟩
  obtain ⟨p, stf, hshape⟩ :=
    agent_runF_llm_fail_shape k cfg env chat_message addition retry_depth st hfail
  have hrun : agent_run cfg env chat_message addition retry_depth st =
      ⟨Event.invokeAgent retry_depth st.randIdx (bytesToHex (randWindow env st.randIdx)) p ::
        (((if cfg.DEBUG_IN_CHAT = true then
            [Event.sendMessage chat_message.chat_key "[Debug] 思考中🤔..."] else []) ++
          (llmLoop env cfg.AI_CHAT_LLM_API_MAX_RETRIES st.llmIdx).1) ++
          [Event.sendAgentMessage chat_message.chat_key "哎呀，请求模型发生了未知错误，等会儿再试试吧 ~" none]),
        stf, some (AgentError.sceneRuntimeError "LLM API error: 达到最大重试次数，停止重试。")⟩ := by
    rw [agent_run, hk]
    exact hshape
  have hl := llmLoop_all_fail env hfail cfg.AI_CHAT_LLM_API_MAX_RETRIES st.llmIdx
  have hz : ∀ (pr : Event → Bool), (∀ i, pr (Event.llmCall i) = false) →
      (∀ t, pr (Event.logError t) = false) →
      (llmLoop env cfg.AI_CHAT_LLM_API_MAX_RETRIES st.llmIdx).1.countP pr = 0 :=
    fun pr h1 h2 => countP_llm_trace_zero env _ _ pr h1 h2 hl.2.2.2
  have hz1 := hz isAgentSendEv (fun _ => rfl) (fun _ => rfl)
  have hz2 := hz isApologyEv (fun _ => rfl) (fun _ => rfl)
  have hz3 := hz isRunCodeEv (fun _ => rfl) (fun _ => rfl)
  have hz4 := hz isSaveLatestEv (fun _ => rfl) (fun _ => rfl)
  have hz5 := hz isSaveArchiveEv (fun _ => rfl) (fun _ => rfl)
  refine ⟨by simp [hrun], ?_, ?_, ?_, ?_, ?_, ?_, ?_⟩ <;>
    by_cases hdbg : cfg.DEBUG_IN_CHAT <;>
      simp [hrun, hdbg, List.countP_cons, List.countP_append, isInvokeEv, isLlmCallEv,
        isLogErrorEv, isAgentSendEv, isApologyEv, isRunCodeEv, isSaveLatestEv, isSaveArchiveEv,
        hl.2.1, hl.2.2.1, hz1, hz2, hz3, hz4, hz5]

theorem C4_backend_exhaustion_witness :
    (agent_run cfgT envFail msgT none 0 stT).err =
      some (AgentError.sceneRuntimeError "LLM API error: 达到最大重试次数，停止重试。") ∧
    (agent_run cfgT envFail msgT none 0 stT).trace.countP isLlmCallEv =
      cfgT.AI_CHAT_LLM_API_MAX_RETRIES ∧
    (agent_run cfgT envFail msgT none 0 stT).trace.countP isLogErrorEv =
      cfgT.AI_CHAT_LLM_API_MAX_RETRIES ∧
    (agent_run cfgT envFail msgT none 0 stT).trace.countP isAgentSendEv = 1 ∧
    (agent_run cfgT envFail msgT none 0 stT).trace.countP isApologyEv = 1 ∧
    (agent_run cfgT envFail msgT none 0 stT).trace.countP isRunCodeEv = 0 ∧
    (agent_run cfgT envFail msgT none 0 stT).trace.countP isSaveLatestEv = 0 ∧
    (agent_run cfgT envFail msgT none 0 stT).trace.countP isSaveArchiveEv = 0 :=
  C4_backend_exhaustion cfgT envFail msgT none 0 stT (fun _ => rfl)

theorem llmLoop_events (env : Env) :
    ∀ (k idx : Nat), ∀ e ∈ (llmLoop env k idx).1,
      isLlmCallEv e = true ∨ isLogErrorEv e = true := by
  intro k
  induction k with
  | zero => intro idx e he; simp [llmLoop] at he
  | succ n ih =>
    intro idx e he
    rcases hl : env.llm idx with er | raw <;> rw [llmLoop, hl] at he
    · rcases he with _ | ⟨_, he⟩
      · exact Or.inl rfl
      · rcases he with _ | ⟨_, he⟩
        · exact Or.inr rfl
        · exact ih (idx + 1) e (by assumption)
    · rcases he with _ | ⟨_, he⟩
      · exact Or.inl rfl
      · cases he

theorem agent_runF_resolve_fail_shape (f : Nat) (cfg : Config) (env : Env) (m : ChatMessage)
    (add : Option Nat) (d : Nat) (st : AState) (raw e : String)
    (hllm : (llmLoop env cfg.AI_CHAT_LLM_API_MAX_RETRIES st.llmIdx).2.2 = some raw)
    (hres : env.resolve raw = Except.error e) :
    ∃ p stf, agent_runF (f + 1) cfg env m add d st =
      ⟨Event.invokeAgent d st.randIdx (bytesToHex (randWindow env st.randIdx)) p ::
        (((if cfg.DEBUG_IN_CHAT = true then [Event.sendMessage m.chat_key "[Debug] 思考中🤔..."] else []) ++
          (llmLoop env cfg.AI_CHAT_LLM_API_MAX_RETRIES st.llmIdx).1) ++
          [Event.logError ("解析结果出错: " ++ e)]),
        stf, some (AgentError.resolveError ("解析结果出错: " ++ e))⟩ := by
  simp only [agent_runF, allocAddition_llmIdx, hllm, hres]
  exact ⟨_, _, rfl⟩

/-- C5: when the response resolver fails, the invocation raises a
resolution error to its caller, does not retry the model call, executes
no resolved action (no sandbox run, no send through send_agent_message,
no persistence, no recursive invocation beyond its own entry) and sends
no terminal notice. -/
theorem C5_resolve_failure (cfg : Config) (env : Env) (chat_message : ChatMessage)
    (addition : Option Nat) (retry_depth : Nat) (st : AState) (raw e : String)
    (hllm : (llmLoop env cfg.AI_CHAT_LLM_API_MAX_RETRIES st.llmIdx).2.2 = some raw)
    (hres : env.resolve raw = Except.error e) :
    (agent_run cfg env chat_message addition retry_depth st).err =
      some (AgentError.resolveError ("解析结果出错: " ++ e)) ∧
    (agent_run cfg env chat_message addition retry_depth st).trace.countP isRunCodeEv = 0 ∧
    (agent_run cfg env chat_message addition retry_depth st).trace.countP isAgentSendEv = 0 ∧
    (agent_run cfg env chat_message addition retry_depth st).trace.countP isSaveLatestEv = 0 ∧
    (agent_run cfg env chat_message addition retry_depth st).trace.countP isSaveArchiveEv = 0 ∧
    (agent_run cfg env chat_message addition retry_depth st).trace.countP isTerminalNoticeEv = 0 ∧
    (agent_run cfg env chat_message addition retry_depth st).trace.countP isInvokeEv = 1 := by
  obtain ⟨k, hk⟩ : ∃ k, (if retry_depth ≤ cfg.AI_SCRIPT_MAX_RETRY_TIMES
      then cfg.AI_SCRIPT_MAX_RETRY_TIMES + 1 - retry_depth else 1) = k + 1 :=
    ⟨(if retry_depth ≤ cfg.AI_SCRIPT_MAX_RETRY_TIMES
        then cfg.AI_SCRIPT_MAX_RETRY_TIMES + 1 - retry_depth else 1) - 1, by
      split <;> omega⟩
  obtain ⟨p, stf, hshape⟩ :=
    agent_runF_resolve_fail_shape k cfg env chat_message addition retry_depth st raw e hllm hres
  have hrun : agent_run cfg env chat_message addition retry_depth st =
      ⟨Event.invokeAgent retry_depth st.randIdx (bytesToHex (randWindow env st.randIdx)) p ::
        (((if cfg.DEBUG_IN_CHAT = true then
            [Event.sendMessage chat_message.chat_key "[Debug] 思考中🤔..."] else []) ++
          (llmLoop env cfg.AI_CHAT_LLM_API_MAX_RETRIES st.llmIdx).1) ++
          [Event.logError ("解析结果出错: " ++ e)]),
        stf, some (AgentError.resolveError ("解析结果出错: " ++ e))⟩ := by
    rw [agent_run, hk]
    exact hshape
  have hevs := llmLoop_events env cfg.AI_CHAT_LLM_API_MAX_RETRIES st.llmIdx
  have hz : ∀ (pr : Event → Bool), (∀ i, pr (Event.llmCall i) = false) →
      (∀ t, pr (Event.logError t) = false) →
      (llmLoop env cfg.AI_CHAT_LLM_API_MAX_RETRIES st.llmIdx).1.countP pr = 0 :=
    fun pr h1 h2 => countP_llm_trace_zero env _ _ pr h1 h2 hevs
  have hz1 := hz isRunCodeEv (fun _ => rfl) (fun _ => rfl)
  have hz2 := hz isAgentSendEv (fun _ => rfl) (fun _ => rfl)
  have hz3 := hz isSaveLatestEv (fun _ => rfl) (fun _ => rfl)
  have hz4 := hz isSaveArchiveEv (fun _ => rfl) (fun _ => rfl)
  have hz5 := hz isTerminalNoticeEv (fun _ => rfl) (fun _ => rfl)
  have hz6 := hz isInvokeEv (fun _ => rfl) (fun _ => rfl)
  refine ⟨by simp [hrun], ?_, ?_, ?_, ?_, ?_, ?_⟩ <;>
    by_cases hdbg : cfg.DEBUG_IN_CHAT <;>
      simp [hrun, hdbg, List.countP_cons, List.countP_append, isInvokeEv, isRunCodeEv,
        isAgentSendEv, isSaveLatestEv, isSaveArchiveEv, isTerminalNoticeEv,
        hz1, hz2, hz3, hz4, hz5, hz6]

theorem C5_resolve_failure_witness :
    (llmLoop envBadResolve cfgT.AI_CHAT_LLM_API_MAX_RETRIES stT.llmIdx).2.2 = some "raw" ∧
    envBadResolve.resolve "raw" = Except.error "one-time code mismatch" ∧
    (agent_run cfgT envBadResolve msgT none 0 stT).err =
      some (AgentError.resolveError ("解析结果出错: " ++ "one-time code mismatch")) ∧
    (agent_run cfgT envBadResolve msgT none 0 stT).trace.countP isRunCodeEv = 0 ∧
    (agent_run cfgT envBadResolve msgT none 0 stT).trace.countP isAgentSendEv = 0 ∧
    (agent_run cfgT envBadResolve msgT none 0 stT).trace.countP isSaveLatestEv = 0 ∧
    (agent_run cfgT envBadResolve msgT none 0 stT).trace.countP isSaveArchiveEv = 0 ∧
    (agent_run cfgT envBadResolve msgT none 0 stT).trace.countP isTerminalNoticeEv = 0 ∧
    (agent_run cfgT envBadResolve msgT none 0 stT).trace.countP isInvokeEv = 1 := by
  refine ⟨by decide, rfl, ?_⟩
  have h := C5_resolve_failure cfgT envBadResolve msgT none 0 stT "raw"
    "one-time code mismatch" (by decide) rfl
  exact ⟨h.1, h.2.1, h.2.2.1, h.2.2.2.1, h.2.2.2.2.1, h.2.2.2.2.2.1, h.2.2.2.2.2.2⟩

/-- C6 as stated is false on the code: with a backend that fails once
and then succeeds (two attempts), the latest slot is written exactly
once, not once per attempt; and with failing persistence the invocation
aborts with a save error before executing the resolved text action, so
persistence is not best-effort. -/
theorem C6_counterexample :
    ((agent_run cfgT envTextOneFail msgT none 0 stT).trace.countP isLlmCallEv = 2 ∧
      (agent_run cfgT envTextOneFail msgT none 0 stT).trace.countP isSaveLatestEv = 1 ∧
      (agent_run cfgT envTextOneFail msgT none 0 stT).trace.countP isSaveArchiveEv = 1) ∧
    ((agent_run cfgT envSaveFail msgT none 0 stT).err = some AgentError.saveError ∧
      (agent_run cfgT envSaveFail msgT none 0 stT).trace.countP isRecordSendEv = 0) := by
  decide

theorem execSeq_all_text (runRec : Config → Env → ChatMessage → Option Nat → Nat → AState → RunOut)
    (cfg : Config) (env : Env) (chat_message : ChatMessage) (r retry_depth : Nat) :
    ∀ (acts : List RetData) (st : AState), (∀ a ∈ acts, a.type = ChatResponseType.TEXT) →
      execSeq runRec cfg env chat_message r retry_depth acts st =
        ⟨acts.map (fun a => Event.sendAgentMessage chat_message.chat_key a.content (some true)),
          st, none⟩ := by
  intro acts
  induction acts with
  | nil => intro st _; rfl
  | cons a rest ih =>
    intro st hall
    have ha : a.type = ChatResponseType.TEXT := hall a (List.mem_cons_self _ _)
    have hrest : ∀ b ∈ rest, b.type = ChatResponseType.TEXT :=
      fun b hb => hall b (List.mem_cons_of_mem _ hb)
    simp only [execSeq, ha, execResultCore, ih st hrest]
    rfl

/-- C6 amended: persistence of the raw prompt/response pair happens once
per invocation, not once per attempt: after the model-call loop
delivers a response that resolves (here to text actions), the pair is
written exactly once to the fixed latest slot and once to a
timestamp-named archival slot, regardless of how many attempts failed
before; and a persistence failure is not swallowed: it aborts the
invocation before any resolved action executes. -/
theorem C6_persistence (cfg : Config) (env : Env) (chat_message : ChatMessage)
    (addition : Option Nat) (retry_depth : Nat) (st : AState) (raw : String)
    (acts : List RetData)
    (hllm : (llmLoop env cfg.AI_CHAT_LLM_API_MAX_RETRIES st.llmIdx).2.2 = some raw)
    (hres : env.resolve raw = Except.ok acts)
    (hacts : ∀ a ∈ acts, a.type = ChatResponseType.TEXT) :
    (env.saveOk = true →
      (agent_run cfg env chat_message addition retry_depth st).trace.countP isSaveLatestEv = 1 ∧
      (agent_run cfg env chat_message addition retry_depth st).trace.countP isSaveArchiveEv = 1 ∧
      (agent_run cfg env chat_message addition retry_depth st).err = none) ∧
    (env.saveOk = false →
      (agent_run cfg env chat_message addition retry_depth st).err = some AgentError.saveError ∧
      (agent_run cfg env chat_message addition retry_depth st).trace.countP isSaveLatestEv = 0 ∧
      (agent_run cfg env chat_message addition retry_depth st).trace.countP isSaveArchiveEv = 0 ∧
      (agent_run cfg env chat_message addition retry_depth st).trace.countP isRecordSendEv = 0) := by
  obtain ⟨k, hk⟩ : ∃ k, (if retry_depth ≤ cfg.AI_SCRIPT_MAX_RETRY_TIMES
      then cfg.AI_SCRIPT_MAX_RETRY_TIMES + 1 - retry_depth else 1) = k + 1 :=
    ⟨(if retry_depth ≤ cfg.AI_SCRIPT_MAX_RETRY_TIMES
        then cfg.AI_SCRIPT_MAX_RETRY_TIMES + 1 - retry_depth else 1) - 1, by
      split <;> omega⟩
  have hevs := llmLoop_events env cfg.AI_CHAT_LLM_API_MAX_RETRIES st.llmIdx
  have hz : ∀ (pr : Event → Bool), (∀ i, pr (Event.llmCall i) = false) →
      (∀ t, pr (Event.logError t) = false) →
      (llmLoop env cfg.AI_CHAT_LLM_API_MAX_RETRIES st.llmIdx).1.countP pr = 0 :=
    fun pr h1 h2 => countP_llm_trace_zero env _ _ pr h1 h2 hevs
  have hz1 := hz isSaveLatestEv (fun _ => rfl) (fun _ => rfl)
  have hz2 := hz isSaveArchiveEv (fun _ => rfl) (fun _ => rfl)
  have hz3 := hz isRecordSendEv (fun _ => rfl) (fun _ => rfl)
  have hmap : ∀ (pr : Event → Bool),
      (∀ ck t rec, pr (Event.sendAgentMessage ck t rec) = false) →
      (acts.map (fun a =>
        Event.sendAgentMessage chat_message.chat_key a.content (some true))).countP pr = 0 := by
    intro pr hpr
    rw [List.countP_eq_zero]
    intro e he
    obtain ⟨a, _, rfl⟩ := List.mem_map.mp he
    simp [hpr]
  have hm1 := hmap isSaveLatestEv (fun _ _ _ => rfl)
  have hm2 := hmap isSaveArchiveEv (fun _ _ _ => rfl)
  constructor
  · intro hs
    rw [agent_run, hk]
    simp only [agent_runF, allocAddition_llmIdx, hllm, hres, hs, if_true]
    rw [execSeq_all_text _ _ _ _ _ _ acts _ hacts]
    by_cases hdbg : cfg.DEBUG_IN_CHAT <;>
      simp [hdbg, List.countP_cons, List.countP_append, isSaveLatestEv, isSaveArchiveEv,
        hz1, hz2, hm1, hm2]
  · intro hs
    rw [agent_run, hk]
    simp only [agent_runF, allocAddition_llmIdx, hllm, hres, hs, Bool.false_eq_true, if_false]
    by_cases hdbg : cfg.DEBUG_IN_CHAT <;>
      simp [hdbg, List.countP_cons, List.countP_append, isSaveLatestEv, isSaveArchiveEv,
        isRecordSendEv, hz1, hz2, hz3]

theorem C6_persistence_witness :
    (llmLoop envTextOneFail cfgT.AI_CHAT_LLM_API_MAX_RETRIES stT.llmIdx).2.2 = some "raw" ∧
    ((envTextOneFail.saveOk = true →
      (agent_run cfgT envTextOneFail msgT none 0 stT).trace.countP isSaveLatestEv = 1 ∧
      (agent_run cfgT envTextOneFail msgT none 0 stT).trace.countP isSaveArchiveEv = 1 ∧
      (agent_run cfgT envTextOneFail msgT none 0 stT).err = none) ∧
    (envTextOneFail.saveOk = false →
      (agent_run cfgT envTextOneFail msgT none 0 stT).err = some AgentError.saveError ∧
      (agent_run cfgT envTextOneFail msgT none 0 stT).trace.countP isSaveLatestEv = 0 ∧
      (agent_run cfgT envTextOneFail msgT none 0 stT).trace.countP isSaveArchiveEv = 0 ∧
      (agent_run cfgT envTextOneFail msgT none 0 stT).trace.countP isRecordSendEv = 0)) :=
  ⟨by decide,
    C6_persistence cfgT envTextOneFail msgT none 0 stT "raw"
      [{ type := ChatResponseType.TEXT, content := "Hello" }] (by decide) rfl
      (by
        intro a ha
        rcases ha with _ | ⟨_, ha⟩
        · rfl
        · cases ha)⟩

theorem heapAppend_length (h : List (List Msg)) (r : Nat) (m : Msg) :
    (heapAppend h r m).length = h.length := by
  simp [heapAppend]

theorem heapAppend_getD_self (h : List (List Msg)) (r : Nat) (m : Msg) (hr : r < h.length) :
    (heapAppend h r m).getD r [] = h.getD r [] ++ [m] := by
  simp [heapAppend, List.getD_eq_getElem?_getD, List.getElem?_set_self hr]

theorem heapAppend_getD_ne (h : List (List Msg)) (r : Nat) (m : Msg) (j : Nat) (hj : j ≠ r) :
    (heapAppend h r m).getD j [] = h.getD j [] := by
  simp [heapAppend, List.getD_eq_getElem?_getD, List.getElem?_set_ne (Ne.symm hj)]

theorem heapAppend_getD_mono (h : List (List Msg)) (r : Nat) (m : Msg) (j : Nat) :
    ∃ suf, (heapAppend h r m).getD j [] = h.getD j [] ++ suf := by
  rcases eq_or_ne j r with rfl | hj
  · rcases Nat.lt_or_ge j h.length with hr | hr
    · exact ⟨[m], heapAppend_getD_self h j m hr⟩
    · refine ⟨[], ?_⟩
      simp [heapAppend, List.set_eq_of_length_le hr]
  · exact ⟨[], by simp only [heapAppend_getD_ne h r m j hj, List.append_nil]⟩

theorem allocAddition_getD (add : Option Nat) (st : AState) (j : Nat) :
    (allocAddition add st).2.heap.getD j [] = st.heap.getD j [] := by
  have happ : (st.heap ++ [[]]).getD j [] = st.heap.getD j [] := by
    rcases Nat.lt_or_ge j st.heap.length with hj | hj
    · simp [List.getD_eq_getElem?_getD, List.getElem?_append, hj]
    · rcases Nat.eq_or_lt_of_le hj with rfl | hj2
      · simp [List.getD_eq_getElem?_getD, List.getElem?_append,
          List.getElem?_eq_none (le_refl st.heap.length)]
      · simp only [List.getD_eq_getElem?_getD]
        rw [List.getElem?_eq_none (by omega : st.heap.length ≤ j),
          List.getElem?_eq_none (by simp; omega : (st.heap ++ [[]]).length ≤ j)]
  rcases add with _ | i
  · simpa [allocAddition] using happ
  · simp only [allocAddition]
    split
    · simpa using happ
    · rfl

theorem execResultCore_heap_mono
    (runRec : Config → Env → ChatMessage → Option Nat → Nat → AState → RunOut)
    (hm : HeapMonoRec runRec) (cfg : Config) (env : Env) (t : ChatResponseType)
    (c : String) (m : ChatMessage) (r d : Nat) (st : AState) (j : Nat) :
    ∃ suf, ((execResultCore runRec cfg env t c m r d st).state.heap.getD j []) =
      st.heap.getD j [] ++ suf := by
  rcases t with _ | _
  · exact ⟨[], by simp [execResultCore]⟩
  · simp only [execResultCore]
    split
    · obtain ⟨s1, hs1⟩ := heapAppend_getD_mono st.heap r (scriptAiMsg c) j
      obtain ⟨s2, hs2⟩ := heapAppend_getD_mono (heapAppend st.heap r (scriptAiMsg c)) r
        (if d < cfg.AI_SCRIPT_MAX_RETRY_TIMES - 1
          then retryUserMsg (errShownOf (pyCutSuffix (env.runCode c m.chat_key) env.codeRunErrorFlag))
          else giveupUserMsg (errShownOf (pyCutSuffix (env.runCode c m.chat_key) env.codeRunErrorFlag))) j
      split
      · obtain ⟨s3, hs3⟩ := hm cfg env m (some r) (d + 1)
          { st with heap := heapAppend (heapAppend st.heap r (scriptAiMsg c)) r _ } j
        refine ⟨s1 ++ s2 ++ s3, ?_⟩
        simp only []
        rw [hs3]
        simp only []
        rw [hs2, hs1]
        simp [List.append_assoc]
      · refine ⟨s1 ++ s2, ?_⟩
        simp only []
        rw [hs2, hs1]
        simp [List.append_assoc]
    · exact ⟨[], by simp⟩

theorem execSeq_heap_mono
    (runRec : Config → Env → ChatMessage → Option Nat → Nat → AState → RunOut)
    (hm : HeapMonoRec runRec) (cfg : Config) (env : Env) (m : ChatMessage) (r d : Nat) :
    ∀ (acts : List RetData) (st : AState) (j : Nat),
      ∃ suf, ((execSeq runRec cfg env m r d acts st).state.heap.getD j []) =
        st.heap.getD j [] ++ suf := by
  intro acts
  induction acts with
  | nil => exact fun st j => ⟨[], by simp [execSeq]⟩
  | cons a rest ih =>
    intro st j
    obtain ⟨s1, hs1⟩ := execResultCore_heap_mono runRec hm cfg env a.type a.content m r d st j
    simp only [execSeq]
    split
    · exact ⟨s1, hs1⟩
    · obtain ⟨s2, hs2⟩ := ih (execResultCore runRec cfg env a.type a.content m r d st).state j
      refine ⟨s1 ++ s2, ?_⟩
      simp only []
      rw [hs2, hs1, List.append_assoc]

theorem agent_runF_heap_mono : ∀ (f : Nat), HeapMonoRec (agent_runF f) := by
  intro f
  induction f with
  | zero => exact fun cfg env m add d st j => ⟨[], by simp [agent_runF]⟩
  | succ n ih =>
    intro cfg env m add d st j
    simp only [agent_runF]
    split
    · exact ⟨[], by simp only [allocAddition_getD, List.append_nil]⟩
    · split
      · exact ⟨[], by simp only [allocAddition_getD, List.append_nil]⟩
      · split
        · obtain ⟨s1, hs1⟩ := execSeq_heap_mono (agent_runF n) ih cfg env m _ d _ _ j
          refine ⟨s1, ?_⟩
          simp only []
          rw [hs1]
          simp only [allocAddition_getD]
        · exact ⟨[], by simp only [allocAddition_getD, List.append_nil]⟩

/-- C3: a failed script action appends exactly two entries to its
addition-message list, in order: first the assistant-authored message
holding the failing script, then the user-authored error message,
phrased as retry-and-preserve-format when Retry Depth + 1 < the
configured maximum and as give-up-and-explain otherwise; any further
growth (the trailing suffix) comes only from the recursive invocation,
and when the budget is exhausted the suffix is empty. -/
theorem C3_error_feedback (cfg : Config) (env : Env) (ret_content : String)
    (chat_message : ChatMessage) (r retry_depth : Nat) (st : AState)
    (hflag : pyEndsWith (env.runCode ret_content chat_message.chat_key) env.codeRunErrorFlag = true)
    (hr : r < st.heap.length) :
    ∃ suffix,
      ((agent_exec_result cfg env ChatResponseType.SCRIPT ret_content chat_message
          r retry_depth st).state.heap.getD r []) =
        st.heap.getD r [] ++
          [scriptAiMsg ret_content,
            if retry_depth + 1 < cfg.AI_SCRIPT_MAX_RETRY_TIMES
              then retryUserMsg (errShownOf
                (pyCutSuffix (env.runCode ret_content chat_message.chat_key) env.codeRunErrorFlag))
              else giveupUserMsg (errShownOf
                (pyCutSuffix (env.runCode ret_content chat_message.chat_key) env.codeRunErrorFlag))] ++
          suffix ∧
      (cfg.AI_SCRIPT_MAX_RETRY_TIMES ≤ retry_depth → suffix = []) := by
  have hcond : (retry_depth < cfg.AI_SCRIPT_MAX_RETRY_TIMES - 1) ↔
      (retry_depth + 1 < cfg.AI_SCRIPT_MAX_RETRY_TIMES) := by omega
  by_cases hd : retry_depth < cfg.AI_SCRIPT_MAX_RETRY_TIMES
  · simp only [agent_exec_result, execResultCore, hflag, hd, if_true]
    obtain ⟨suf, hsuf⟩ := agent_runF_heap_mono (cfg.AI_SCRIPT_MAX_RETRY_TIMES - retry_depth) cfg env chat_message (some r) (retry_depth + 1) (AState.mk (heapAppend (heapAppend st.heap r (scriptAiMsg ret_content)) r (if retry_depth < cfg.AI_SCRIPT_MAX_RETRY_TIMES - 1 then retryUserMsg (errShownOf (pyCutSuffix (env.runCode ret_content chat_message.chat_key) env.codeRunErrorFlag)) else giveupUserMsg (errShownOf (pyCutSuffix (env.runCode ret_content chat_message.chat_key) env.codeRunErrorFlag)))) st.llmIdx st.randIdx) r
    refine ⟨suf, ?_, fun h => absurd hd (by omega)⟩
    rw [hsuf]
    dsimp only
    rw [heapAppend_getD_self _ _ _ (by rw [heapAppend_length]; exact hr),
      heapAppend_getD_self _ _ _ hr]
    simp [hcond, List.append_assoc]
  · simp only [agent_exec_result, execResultCore, hflag, if_true, if_neg hd]
    refine ⟨[], ?_, fun _ => rfl⟩
    dsimp only
    rw [heapAppend_getD_self _ _ _ (by rw [heapAppend_length]; exact hr),
      heapAppend_getD_self _ _ _ hr]
    have h1 : ¬(retry_depth < cfg.AI_SCRIPT_MAX_RETRY_TIMES - 1) := by omega
    have h2 : ¬(retry_depth + 1 < cfg.AI_SCRIPT_MAX_RETRY_TIMES) := by omega
    simp [h1, h2, List.append_assoc]

theorem C3_error_feedback_witness :
    pyEndsWith (envT.runCode "code" msgT.chat_key) envT.codeRunErrorFlag = true ∧
    0 < stT.heap.length ∧
    (∃ suffix,
      ((agent_exec_result cfgT envT ChatResponseType.SCRIPT "code" msgT 0 0
          stT).state.heap.getD 0 []) =
        stT.heap.getD 0 [] ++
          [scriptAiMsg "code",
            if 0 + 1 < cfgT.AI_SCRIPT_MAX_RETRY_TIMES
              then retryUserMsg (errShownOf
                (pyCutSuffix (envT.runCode "code" msgT.chat_key) envT.codeRunErrorFlag))
              else giveupUserMsg (errShownOf
                (pyCutSuffix (envT.runCode "code" msgT.chat_key) envT.codeRunErrorFlag))] ++
          suffix ∧
      (cfgT.AI_SCRIPT_MAX_RETRY_TIMES ≤ 0 → suffix = [])) :=
  ⟨by decide, by decide, C3_error_feedback cfgT envT "code" msgT 0 0 stT (by decide) (by decide)⟩

theorem execResultCore_len_mono
    (runRec : Config → Env → ChatMessage → Option Nat → Nat → AState → RunOut)
    (hl : LenMonoRec runRec) (cfg : Config) (env : Env) (t : ChatResponseType)
    (c : String) (m : ChatMessage) (r d : Nat) (st : AState) :
    st.heap.length ≤ (execResultCore runRec cfg env t c m r d st).state.heap.length := by
  rcases t with _ | _
  · simp [execResultCore]
  · simp only [execResultCore]
    split
    · split
      · refine le_trans ?_ (hl cfg env m (some r) (d + 1) _)
        simp [heapAppend_length]
      · simp [heapAppend_length]
    · exact le_refl _

theorem execSeq_len_mono
    (runRec : Config → Env → ChatMessage → Option Nat → Nat → AState → RunOut)
    (hl : LenMonoRec runRec) (cfg : Config) (env : Env) (m : ChatMessage) (r d : Nat) :
    ∀ (acts : List RetData) (st : AState),
      st.heap.length ≤ (execSeq runRec cfg env m r d acts st).state.heap.length := by
  intro acts
  induction acts with
  | nil => intro st; simp [execSeq]
  | cons a rest ih =>
    intro st
    simp only [execSeq]
    split
    · exact execResultCore_len_mono runRec hl cfg env a.type a.content m r d st
    · exact le_trans (execResultCore_len_mono runRec hl cfg env a.type a.content m r d st)
        (ih _)

theorem agent_runF_len_mono : ∀ (f : Nat), LenMonoRec (agent_runF f) := by
  intro f
  induction f with
  | zero => exact fun cfg env m add d st => le_refl _
  | succ n ih =>
    intro cfg env m add d st
    simp only [agent_runF]
    split
    · exact allocAddition_heap_len add ⟨st.heap, st.llmIdx, st.randIdx + 4⟩
    · split
      · exact allocAddition_heap_len add ⟨st.heap, st.llmIdx, st.randIdx + 4⟩
      · split
        · dsimp only
          rename_i retl hres hsave
          refine le_trans (allocAddition_heap_len add ⟨st.heap, st.llmIdx, st.randIdx + 4⟩) ?_
          exact execSeq_len_mono (agent_runF n) ih cfg env m
            (allocAddition add ⟨st.heap, st.llmIdx, st.randIdx + 4⟩).1 d retl
            ⟨(allocAddition add ⟨st.heap, st.llmIdx, st.randIdx + 4⟩).2.heap,
              (llmLoop env cfg.AI_CHAT_LLM_API_MAX_RETRIES
                (allocAddition add ⟨st.heap, st.llmIdx, st.randIdx + 4⟩).2.llmIdx).2.1,
              (allocAddition add ⟨st.heap, st.llmIdx, st.randIdx + 4⟩).2.randIdx⟩
        · exact allocAddition_heap_len add ⟨st.heap, st.llmIdx, st.randIdx + 4⟩

theorem execResultCore_frame
    (runRec : Config → Env → ChatMessage → Option Nat → Nat → AState → RunOut)
    (hf : FramePresRec runRec) (cfg : Config) (env : Env) (t : ChatResponseType)
    (c : String) (m : ChatMessage) (r d : Nat) (st : AState) (j : Nat)
    (hj : j < st.heap.length) (hjr : j ≠ r) :
    ((execResultCore runRec cfg env t c m r d st).state.heap.getD j []) =
      st.heap.getD j [] := by
  rcases t with _ | _
  · simp [execResultCore]
  · simp only [execResultCore]
    split
    · split
      · rw [hf cfg env m (some r) (d + 1) _ j
          (by simp [heapAppend_length]; exact hj)
          (by intro i hi _; cases hi; exact fun h => hjr (h.symm ▸ rfl))]
        · dsimp only
          rw [heapAppend_getD_ne _ _ _ j hjr, heapAppend_getD_ne _ _ _ j hjr]
      · dsimp only
        rw [heapAppend_getD_ne _ _ _ j hjr, heapAppend_getD_ne _ _ _ j hjr]
    · rfl

theorem execSeq_frame
    (runRec : Config → Env → ChatMessage → Option Nat → Nat → AState → RunOut)
    (hf : FramePresRec runRec) (hl : LenMonoRec runRec) (cfg : Config) (env : Env)
    (m : ChatMessage) (r d : Nat) :
    ∀ (acts : List RetData) (st : AState) (j : Nat), j < st.heap.length → j ≠ r →
      ((execSeq runRec cfg env m r d acts st).state.heap.getD j []) = st.heap.getD j [] := by
  intro acts
  induction acts with
  | nil => intro st j _ _; rfl
  | cons a rest ih =>
    intro st j hj hjr
    simp only [execSeq]
    split
    · exact execResultCore_frame runRec hf cfg env a.type a.content m r d st j hj hjr
    · rw [ih _ j (lt_of_lt_of_le hj
        (execResultCore_len_mono runRec hl cfg env a.type a.content m r d st)) hjr]
      exact execResultCore_frame runRec hf cfg env a.type a.content m r d st j hj hjr

theorem allocAddition_ref_cases (add : Option Nat) (st : AState) :
    (allocAddition add st).1 = st.heap.length ∨
      (∃ i, add = some i ∧ st.heap.getD i [] ≠ [] ∧ allocAddition add st = (i, st)) := by
  rcases add with _ | i
  · left; rfl
  · simp only [allocAddition]
    split
    · left; rfl
    · right
      refine ⟨i, rfl, ?_, rfl⟩
      intro h
      simp_all [List.isEmpty_iff]

theorem agent_runF_frame : ∀ (f : Nat), FramePresRec (agent_runF f) := by
  intro f
  induction f with
  | zero => exact fun cfg env m add d st j _ _ => rfl
  | succ n ih =>
    intro cfg env m add d st j hj hcond
    have hane : (allocAddition add ⟨st.heap, st.llmIdx, st.randIdx + 4⟩).1 ≠ j := by
      rcases allocAddition_ref_cases add ⟨st.heap, st.llmIdx, st.randIdx + 4⟩ with h | ⟨i, hi, hne, heq⟩
      · rw [h]
        exact Nat.ne_of_gt hj
      · rw [heq]
        exact hcond i hi hne
    simp only [agent_runF]
    split
    · exact allocAddition_getD add _ j
    · split
      · exact allocAddition_getD add _ j
      · split
        · dsimp only
          rename_i retl hres hsave
          rw [execSeq_frame (agent_runF n) ih (agent_runF_len_mono n) cfg env m
            (allocAddition add ⟨st.heap, st.llmIdx, st.randIdx + 4⟩).1 d retl
            ⟨(allocAddition add ⟨st.heap, st.llmIdx, st.randIdx + 4⟩).2.heap,
              (llmLoop env cfg.AI_CHAT_LLM_API_MAX_RETRIES
                (allocAddition add ⟨st.heap, st.llmIdx, st.randIdx + 4⟩).2.llmIdx).2.1,
              (allocAddition add ⟨st.heap, st.llmIdx, st.randIdx + 4⟩).2.randIdx⟩ j
            (lt_of_lt_of_le hj (allocAddition_heap_len add ⟨st.heap, st.llmIdx, st.randIdx + 4⟩))
            (Ne.symm hane)]
          exact allocAddition_getD add _ j
        · exact allocAddition_getD add _ j

theorem allocAddition_some_empty (j : Nat) (st : AState) (h : st.heap.getD j [] = []) :
    allocAddition (some j) st = allocAddition none st := by
  simp only [allocAddition, h, List.isEmpty_nil, eq_self_iff_true, if_true]

theorem agent_runF_none_empty (f : Nat) (cfg : Config) (env : Env) (m : ChatMessage)
    (d : Nat) (st : AState) (j : Nat) (hempty : st.heap.getD j [] = []) :
    agent_runF f cfg env m (some j) d st = agent_runF f cfg env m none d st := by
  cases f with
  | zero => rfl
  | succ n =>
    simp only [agent_runF]
    rw [allocAddition_some_empty j ⟨st.heap, st.llmIdx, st.randIdx + 4⟩ hempty]

/-- C10: calling agent_run with no addition-message argument behaves
identically to calling it with a reference to an empty list: both
allocate a fresh list object, so the outputs coincide and the
caller-supplied empty list is never mutated by the invocation or its
retry chain. -/
theorem C10_none_empty_list (cfg : Config) (env : Env) (chat_message : ChatMessage)
    (retry_depth : Nat) (st : AState) (j : Nat)
    (hj : j < st.heap.length) (hempty : st.heap.getD j [] = []) :
    agent_run cfg env chat_message (some j) retry_depth st =
      agent_run cfg env chat_message none retry_depth st ∧
    (agent_run cfg env chat_message (some j) retry_depth st).state.heap.getD j [] = [] := by
  have heq : agent_run cfg env chat_message (some j) retry_depth st =
      agent_run cfg env chat_message none retry_depth st := by
    rw [agent_run, agent_run, agent_runF_none_empty _ cfg env chat_message retry_depth st j hempty]
  refine ⟨heq, ?_⟩
  rw [heq, agent_run]
  rw [agent_runF_frame _ cfg env chat_message none retry_depth st j hj (by intro i hi; cases hi)]
  exact hempty

theorem C10_none_empty_list_witness :
    0 < stT.heap.length ∧ stT.heap.getD 0 [] = [] ∧
    (agent_run cfgT envT msgT (some 0) 0 stT = agent_run cfgT envT msgT none 0 stT ∧
      (agent_run cfgT envT msgT (some 0) 0 stT).state.heap.getD 0 [] = []) :=
  ⟨by decide, by decide, C10_none_empty_list cfgT envT msgT 0 stT 0 (by decide) (by decide)⟩

theorem hexDigitChar_mem_of_lt (n : Nat) (h : n < 16) : hexDigitChar n ∈ hexChars := by
  have key : ∀ x : Fin 16, hexDigitChar x.val ∈ hexChars := by decide
  exact key ⟨n, h⟩

theorem hexDigitChar_inj (a b : Nat) (ha : a < 16) (hb : b < 16)
    (h : hexDigitChar a = hexDigitChar b) : a = b := by
  have key : ∀ (x y : Fin 16), hexDigitChar x.val = hexDigitChar y.val → x = y := by decide
  have := key ⟨a, ha⟩ ⟨b, hb⟩ h
  simpa using congrArg Fin.val this

theorem byteToHex_inj (x y : Fin 256) (h : byteToHex x = byteToHex y) : x = y := by
  simp only [byteToHex, List.cons.injEq, and_true] at h
  have h1 := hexDigitChar_inj (x.val / 16) (y.val / 16) (by omega) (by omega) h.1
  have h2 := hexDigitChar_inj (x.val % 16) (y.val % 16) (by omega) (by omega) h.2
  have hx := x.isLt
  have hy := y.isLt
  apply Fin.ext
  omega

theorem bytesToHex_inj : ∀ (a b : List (Fin 256)), a.length = b.length →
    bytesToHex a = bytesToHex b → a = b := by
  intro a
  induction a with
  | nil =>
    intro b hl _
    cases b with
    | nil => rfl
    | cons y ys => simp at hl
  | cons x xs ih =>
    intro b hl h
    cases b with
    | nil => simp at hl
    | cons y ys =>
      simp only [bytesToHex, List.flatMap_cons] at h
      have hdata : byteToHex x ++ xs.flatMap byteToHex = byteToHex y ++ ys.flatMap byteToHex :=
        congrArg String.data h
      have hpair := List.append_inj hdata (by simp [byteToHex])
      have hx := byteToHex_inj x y hpair.1
      have hxs := ih ys (by simpa using hl) (congrArg String.mk hpair.2)
      rw [hx, hxs]

theorem bytesToHex_length (bs : List (Fin 256)) : (bytesToHex bs).length = 2 * bs.length := by
  induction bs with
  | nil => rfl
  | cons x xs ih =>
    simp only [bytesToHex, List.flatMap_cons, String.length] at *
    simp only [List.length_append, byteToHex, List.length_cons, List.length_nil]
    omega

theorem bytesToHex_chars (bs : List (Fin 256)) :
    ∀ ch ∈ (bytesToHex bs).data, ch ∈ hexChars := by
  intro ch hch
  simp only [bytesToHex] at hch
  obtain ⟨b, hbmem, hb⟩ := List.mem_flatMap.mp hch
  have hlt := b.isLt
  rcases hb with _ | ⟨_, hb⟩
  · exact hexDigitChar_mem_of_lt _ (by omega)
  · rcases hb with _ | ⟨_, hb⟩
    · exact hexDigitChar_mem_of_lt _ (by omega)
    · cases hb

theorem Chained_mono_lo {lo lo' hi : Nat} {cs : List Nat} (h : lo' ≤ lo)
    (hc : Chained lo cs hi) : Chained lo' cs hi := by
  cases cs with
  | nil => exact le_trans h hc
  | cons c cs => exact ⟨le_trans h hc.1, hc.2⟩

theorem Chained_append {lo mid hi : Nat} :
    ∀ {cs1 : List Nat} {cs2 : List Nat}, Chained lo cs1 mid → Chained mid cs2 hi →
      Chained lo (cs1 ++ cs2) hi := by
  intro cs1
  induction cs1 generalizing lo with
  | nil => exact fun h1 h2 => Chained_mono_lo h1 h2
  | cons c cs ih => exact fun h1 h2 => ⟨h1.1, ih h1.2 h2⟩

theorem Chained_le {lo hi : Nat} : ∀ {cs : List Nat}, Chained lo cs hi → lo ≤ hi := by
  intro cs
  induction cs generalizing lo with
  | nil => exact fun h => h
  | cons c cs ih => exact fun h => le_trans h.1 (le_trans (by omega) (ih h.2))

theorem Chained_mem_le {lo hi : Nat} : ∀ {cs : List Nat}, Chained lo cs hi →
    ∀ b ∈ cs, lo ≤ b := by
  intro cs
  induction cs generalizing lo with
  | nil => intro _ b hb; cases hb
  | cons c cs ih =>
    intro h b hb
    rcases hb with _ | ⟨_, hb⟩
    · exact h.1
    · exact le_trans h.1 (le_trans (by omega) (ih h.2 b (by assumption)))

theorem Chained_pairwise {lo hi : Nat} : ∀ {cs : List Nat}, Chained lo cs hi →
    cs.Pairwise (fun a b => a + 4 ≤ b) := by
  intro cs
  induction cs generalizing lo with
  | nil => exact fun _ => List.Pairwise.nil
  | cons c cs ih =>
    intro h
    exact List.Pairwise.cons (fun b hb => Chained_mem_le h.2 b hb) (ih h.2)

theorem invokeCursors_append (a b : List Event) :
    invokeCursors (a ++ b) = invokeCursors a ++ invokeCursors b := by
  simp [invokeCursors, List.filterMap_append]

theorem invokeCursors_no_invoke (l : List Event)
    (h : ∀ e ∈ l, isInvokeEv e = false) : invokeCursors l = [] := by
  rw [invokeCursors, List.filterMap_eq_nil_iff]
  intro e he
  have := h e he
  cases e <;> simp_all [isInvokeEv]

theorem invokeCursors_llm (env : Env) (k idx : Nat) :
    invokeCursors (llmLoop env k idx).1 = [] := by
  apply invokeCursors_no_invoke
  intro e he
  rcases llmLoop_events env k idx e he with h | h <;> cases e <;> simp_all [isLlmCallEv, isLogErrorEv, isInvokeEv]

theorem tokensOkIn_append {env : Env} {a b : List Event}
    (ha : TokensOkIn env a) (hb : TokensOkIn env b) : TokensOkIn env (a ++ b) := by
  intro d c tok p hm
  rcases List.mem_append.mp hm with h | h
  · exact ha d c tok p h
  · exact hb d c tok p h

theorem tokensOkIn_no_invoke {env : Env} {l : List Event}
    (h : ∀ e ∈ l, isInvokeEv e = false) : TokensOkIn env l := by
  intro d c tok p hm
  have := h _ hm
  simp [isInvokeEv] at this

theorem tokensOkIn_llm (env : Env) (k idx : Nat) : TokensOkIn env (llmLoop env k idx).1 := by
  apply tokensOkIn_no_invoke
  intro e he
  rcases llmLoop_events env k idx e he with h | h <;> cases e <;> simp_all [isLlmCallEv, isLogErrorEv, isInvokeEv]

theorem execResultCore_rand
    (runRec : Config → Env → ChatMessage → Option Nat → Nat → AState → RunOut)
    (hr : RandOkRec runRec) (cfg : Config) (env : Env) (t : ChatResponseType)
    (c : String) (m : ChatMessage) (r d : Nat) (st : AState) :
    Chained st.randIdx
      (invokeCursors (execResultCore runRec cfg env t c m r d st).trace)
      ((execResultCore runRec cfg env t c m r d st).state.randIdx) ∧
    TokensOkIn env (execResultCore runRec cfg env t c m r d st).trace := by
  have hone : ∀ (ev : Event), isInvokeEv ev = false →
      ∀ e ∈ (if cfg.DEBUG_IN_CHAT = true
        then [Event.sendMessage m.chat_key "[Debug] 执行程式中🖥️..."] else []) ++ [ev],
        isInvokeEv e = false := by
    intro ev hev e he
    rcases List.mem_append.mp he with h | h
    · split at h
      · rcases h with _ | ⟨_, h⟩
        · rfl
        · cases h
      · cases h
    · rcases h with _ | ⟨_, h⟩
      · exact hev
      · cases h
  have hdbg2 : ∀ (txt : String), ∀ e ∈ (if cfg.DEBUG_IN_CHAT = true
      then [Event.sendMessage m.chat_key txt] else []), isInvokeEv e = false := by
    intro txt e he
    split at he
    · rcases he with _ | ⟨_, he⟩
      · rfl
      · cases he
    · cases he
  rcases t with _ | _
  · constructor
    · exact le_refl _
    · exact tokensOkIn_no_invoke (by
        intro e he
        rcases he with _ | ⟨_, he⟩
        · rfl
        · cases he)
  · simp only [execResultCore]
    split
    · split
      · rename_i hflag hlt
        dsimp only
        obtain ⟨hch, htok⟩ := hr cfg env m (some r) (d + 1)
          (AState.mk (heapAppend (heapAppend st.heap r (scriptAiMsg c)) r (if d < cfg.AI_SCRIPT_MAX_RETRY_TIMES - 1 then retryUserMsg (errShownOf (pyCutSuffix (env.runCode c m.chat_key) env.codeRunErrorFlag)) else giveupUserMsg (errShownOf (pyCutSuffix (env.runCode c m.chat_key) env.codeRunErrorFlag)))) st.llmIdx st.randIdx)
        constructor
        · rw [invokeCursors_append, invokeCursors_append,
            invokeCursors_no_invoke _ (hone (Event.runCode c m.chat_key) rfl),
            invokeCursors_no_invoke _ (hdbg2 _)]
          simpa using hch
        · refine tokensOkIn_append (tokensOkIn_append ?_ ?_) htok
          · exact tokensOkIn_no_invoke (hone (Event.runCode c m.chat_key) rfl)
          · exact tokensOkIn_no_invoke (hdbg2 _)
      · constructor
        · dsimp only
          rw [invokeCursors_append,
            invokeCursors_no_invoke _ (hone (Event.runCode c m.chat_key) rfl),
            invokeCursors_no_invoke _ (by
              intro e he
              rcases he with _ | ⟨_, he⟩
              · rfl
              · cases he)]
          exact le_refl _
        · refine tokensOkIn_append (tokensOkIn_no_invoke (hone (Event.runCode c m.chat_key) rfl))
            (tokensOkIn_no_invoke (by
              intro e he
              rcases he with _ | ⟨_, he⟩
              · rfl
              · cases he))
    · constructor
      · rw [invokeCursors_no_invoke _ (hone (Event.runCode c m.chat_key) rfl)]
        exact le_refl _
      · exact tokensOkIn_no_invoke (hone (Event.runCode c m.chat_key) rfl)

theorem execSeq_rand
    (runRec : Config → Env → ChatMessage → Option Nat → Nat → AState → RunOut)
    (hr : RandOkRec runRec) (cfg : Config) (env : Env) (m : ChatMessage) (r d : Nat) :
    ∀ (acts : List RetData) (st : AState),
      Chained st.randIdx
        (invokeCursors (execSeq runRec cfg env m r d acts st).trace)
        ((execSeq runRec cfg env m r d acts st).state.randIdx) ∧
      TokensOkIn env (execSeq runRec cfg env m r d acts st).trace := by
  intro acts
  induction acts with
  | nil =>
    intro st
    exact ⟨le_refl _, tokensOkIn_no_invoke (fun e he => by cases he)⟩
  | cons a rest ih =>
    intro st
    obtain ⟨hc1, ht1⟩ := execResultCore_rand runRec hr cfg env a.type a.content m r d st
    simp only [execSeq]
    split
    · exact ⟨hc1, ht1⟩
    · obtain ⟨hc2, ht2⟩ := ih (execResultCore runRec cfg env a.type a.content m r d st).state
      constructor
      · dsimp only
        rw [invokeCursors_append]
        exact Chained_append hc1 hc2
      · exact tokensOkIn_append ht1 ht2

theorem invokeCursors_pre (d c0 : Nat) (tok : String) (p : Prompt) (l1 l2 : List Event)
    (h1 : invokeCursors l1 = []) (h2 : invokeCursors l2 = []) :
    invokeCursors (Event.invokeAgent d c0 tok p :: (l1 ++ l2)) = [c0] := by
  simp only [invokeCursors, List.filterMap_cons, List.filterMap_append]
  rw [show List.filterMap _ l1 = ([] : List Nat) from h1,
    show List.filterMap _ l2 = ([] : List Nat) from h2]
  rfl

theorem chained_pre_append (d c0 : Nat) (tok : String) (p : Prompt)
    (l1 l2 tail : List Event) (hi : Nat)
    (h1 : invokeCursors l1 = []) (h2 : invokeCursors l2 = [])
    (htail : Chained (c0 + 4) (invokeCursors tail) hi) :
    Chained c0 (invokeCursors ((Event.invokeAgent d c0 tok p :: (l1 ++ l2)) ++ tail)) hi := by
  rw [invokeCursors_append, invokeCursors_pre d c0 tok p l1 l2 h1 h2]
  exact ⟨le_refl c0, htail⟩

theorem tokensOk_pre_append (env : Env) (d c0 : Nat) (tok : String) (p : Prompt)
    (l1 l2 tail : List Event)
    (hhead : tok = bytesToHex (randWindow env c0))
    (h1 : TokensOkIn env l1) (h2 : TokensOkIn env l2) (ht : TokensOkIn env tail) :
    TokensOkIn env ((Event.invokeAgent d c0 tok p :: (l1 ++ l2)) ++ tail) := by
  intro d0 c00 tok0 p0 hm
  rcases List.mem_append.mp hm with h | h
  · rcases h with _ | ⟨_, h⟩
    · exact hhead
    · rcases List.mem_append.mp h with h3 | h3
      · exact h1 _ _ _ _ h3
      · exact h2 _ _ _ _ h3
  · exact ht _ _ _ _ h

theorem chained_pre_nil (d c0 : Nat) (tok : String) (p : Prompt) (l1 l2 : List Event)
    (hi : Nat) (h1 : invokeCursors l1 = []) (h2 : invokeCursors l2 = [])
    (hhi : c0 + 4 ≤ hi) :
    Chained c0 (invokeCursors (Event.invokeAgent d c0 tok p :: (l1 ++ l2))) hi := by
  rw [invokeCursors_pre d c0 tok p l1 l2 h1 h2]
  exact ⟨le_refl c0, hhi⟩

theorem agent_runF_rand : ∀ (f : Nat), RandOkRec (agent_runF f) := by
  intro f
  induction f with
  | zero =>
    intro cfg env m add d st
    exact ⟨le_refl _, tokensOkIn_no_invoke (fun e he => by cases he)⟩
  | succ n ih =>
    intro cfg env m add d st
    have hdbg : ∀ e ∈ (if cfg.DEBUG_IN_CHAT = true
        then [Event.sendMessage m.chat_key "[Debug] 思考中🤔..."] else []),
        isInvokeEv e = false := by
      intro e he
      split at he
      · rcases he with _ | ⟨_, he⟩
        · rfl
        · cases he
      · cases he
    have hsingle : ∀ (ev : Event), isInvokeEv ev = false →
        (invokeCursors [ev] = [] ∧ TokensOkIn env [ev]) := by
      intro ev hev
      have hall : ∀ e ∈ [ev], isInvokeEv e = false := by
        intro e he
        rcases he with _ | ⟨_, he⟩
        · exact hev
        · cases he
      exact ⟨invokeCursors_no_invoke _ hall, tokensOkIn_no_invoke hall⟩
    have hdbgc := invokeCursors_no_invoke _ hdbg
    have hdbgt : TokensOkIn env (if cfg.DEBUG_IN_CHAT = true
        then [Event.sendMessage m.chat_key "[Debug] 思考中🤔..."] else []) :=
      tokensOkIn_no_invoke hdbg
    have hllmc := invokeCursors_llm env cfg.AI_CHAT_LLM_API_MAX_RETRIES
      (allocAddition add ⟨st.heap, st.llmIdx, st.randIdx + 4⟩).2.llmIdx
    have hllmt := tokensOkIn_llm env cfg.AI_CHAT_LLM_API_MAX_RETRIES
      (allocAddition add ⟨st.heap, st.llmIdx, st.randIdx + 4⟩).2.llmIdx
    simp only [agent_runF]
    split
    · constructor
      · apply chained_pre_append _ _ _ _ _ _ _ _ hdbgc hllmc
        rw [(hsingle (Event.sendAgentMessage m.chat_key
          "哎呀，请求模型发生了未知错误，等会儿再试试吧 ~" none) rfl).1]
        dsimp only
        rw [allocAddition_randIdx]
        exact le_refl _
      · exact tokensOk_pre_append env _ _ _ _ _ _ _ rfl hdbgt hllmt
          (hsingle (Event.sendAgentMessage m.chat_key
            "哎呀，请求模型发生了未知错误，等会儿再试试吧 ~" none) rfl).2
    · split
      · rename_i er hres
        constructor
        · apply chained_pre_append _ _ _ _ _ _ _ _ hdbgc hllmc
          rw [(hsingle (Event.logError ("解析结果出错: " ++ er)) rfl).1]
          dsimp only
          rw [allocAddition_randIdx]
          exact le_refl _
        · exact tokensOk_pre_append env _ _ _ _ _ _ _ rfl hdbgt hllmt
            (hsingle (Event.logError ("解析结果出错: " ++ er)) rfl).2
      · split
        · rename_i retl hres hsave
          obtain ⟨hch, htok⟩ := execSeq_rand (agent_runF n) ih cfg env m
            (allocAddition add ⟨st.heap, st.llmIdx, st.randIdx + 4⟩).1 d retl
            ⟨(allocAddition add ⟨st.heap, st.llmIdx, st.randIdx + 4⟩).2.heap,
              (llmLoop env cfg.AI_CHAT_LLM_API_MAX_RETRIES
                (allocAddition add ⟨st.heap, st.llmIdx, st.randIdx + 4⟩).2.llmIdx).2.1,
              (allocAddition add ⟨st.heap, st.llmIdx, st.randIdx + 4⟩).2.randIdx⟩
          have hlo : st.randIdx + 4 ≤
              (allocAddition add ⟨st.heap, st.llmIdx, st.randIdx + 4⟩).2.randIdx :=
            le_of_eq (by rw [allocAddition_randIdx])
          constructor
          · rw [List.append_assoc]
            apply chained_pre_append _ _ _ _ _ _ _ _ hdbgc hllmc
            rw [invokeCursors_append]
            rw [show invokeCursors [Event.saveLatest, Event.saveArchive] = [] from
              invokeCursors_no_invoke _ (by
                intro e he
                rcases he with _ | ⟨_, he⟩
                · rfl
                · rcases he with _ | ⟨_, he⟩
                  · rfl
                  · cases he)]
            rw [List.nil_append]
            exact Chained_mono_lo hlo hch
          · rw [List.append_assoc]
            refine tokensOk_pre_append env _ _ _ _ _ _ _ rfl hdbgt hllmt ?_
            refine tokensOkIn_append ?_ htok
            exact tokensOkIn_no_invoke (by
              intro e he
              rcases he with _ | ⟨_, he⟩
              · rfl
              · rcases he with _ | ⟨_, he⟩
                · rfl
                · cases he)
        · constructor
          · apply chained_pre_nil _ _ _ _ _ _ _ hdbgc hllmc
            dsimp only
            rw [allocAddition_randIdx]
          · intro d0 c0 tok0 p0 hm
            rcases hm with _ | ⟨_, hm⟩
            · rfl
            · rcases List.mem_append.mp hm with h | h
              · exact absurd (hdbg _ h) (by simp [isInvokeEv])
              · exact hllmt _ _ _ _ h

/-- C7: every invocation of the agent loop, including every recursive
retry invocation, generates its one-time token at entry by hex-encoding
the four fresh oracle bytes at its own cursor; the cursors of the
invocations in a run are pairwise at least four apart, so the byte
windows are disjoint and never reused; each token is 8 lowercase
hexadecimal characters; and the encoding is injective, so two
invocations carry the same token only if the oracle produced the same
four bytes. The token is a function of the freshly drawn bytes only,
never of the caller. -/
theorem C7_one_time_token (cfg : Config) (env : Env) (chat_message : ChatMessage)
    (addition : Option Nat) (retry_depth : Nat) (st : AState) :
    TokensOkIn env (agent_run cfg env chat_message addition retry_depth st).trace ∧
    Chained st.randIdx
      (invokeCursors (agent_run cfg env chat_message addition retry_depth st).trace)
      ((agent_run cfg env chat_message addition retry_depth st).state.randIdx) ∧
    (invokeCursors (agent_run cfg env chat_message addition retry_depth st).trace).Pairwise
      (fun a b => a + 4 ≤ b) ∧
    (∀ d c tok p, Event.invokeAgent d c tok p ∈
        (agent_run cfg env chat_message addition retry_depth st).trace →
      tok.length = 8 ∧ ∀ ch ∈ tok.data, ch ∈ hexChars) ∧
    (∀ c c', bytesToHex (randWindow env c) = bytesToHex (randWindow env c') →
      randWindow env c = randWindow env c') := by
  obtain ⟨hch, htok⟩ := agent_runF_rand
    (if retry_depth ≤ cfg.AI_SCRIPT_MAX_RETRY_TIMES
      then cfg.AI_SCRIPT_MAX_RETRY_TIMES + 1 - retry_depth else 1)
    cfg env chat_message addition retry_depth st
  rw [agent_run]
  refine ⟨htok, hch, Chained_pairwise hch, ?_, ?_⟩
  · intro d c tok p hm
    have heq := htok d c tok p hm
    subst heq
    constructor
    · rw [bytesToHex_length]
      rfl
    · exact bytesToHex_chars _
  · intro c c' h
    exact bytesToHex_inj _ _ rfl h
